import Mathlib

/-!
# Verification of the "Che Ore Sono" time service

This development embeds the single-module FastAPI service (`src/main.py`) in
Lean 4 and proves the specified properties of its one operation.

The service exposes `GET /che_ore_sono`, which returns the current date and
time in the fixed IANA timezone `Europe/Rome`, formatted `YYYY-MM-DD HH:MM:SS`.
Timezone resolution happens on every call via `get_rome_tz`; a missing
timezone database (`ZoneInfoNotFoundError`) is converted into an HTTP 500
`HTTPException` carrying a remediation hint.

The embedding models:
* the epoch-seconds → civil-date conversion performed by the host `datetime`
  library (the standard Gregorian 400-year-cycle algorithm);
* the `Europe/Rome` DST rules supplied by the IANA database for the service's
  operational era (the EU rule in force since 1996: UTC+2 between 01:00 UTC on
  the last Sunday of March and 01:00 UTC on the last Sunday of October,
  UTC+1 otherwise), re-evaluated per instant;
* `strftime("%Y-%m-%d %H:%M:%S")` as zero-padded fixed-width decimal fields;
* the exception flow of `get_rome_tz` / `che_ore_sono` and the FastAPI
  boundary that turns an `HTTPException` into an HTTP response.
-/

/-! ## Gregorian calendar arithmetic (host `datetime` library model) -/

/-- Leap-year test of the proleptic Gregorian calendar
(`calendar.isleap` / the rule used by `datetime`). -/
def isLeap (y : Nat) : Bool :=
  y % 4 == 0 && (y % 100 != 0 || y % 400 == 0)

/-- Number of days in month `m` of year `y` (months numbered 1–12). -/
def daysInMonth (y m : Nat) : Nat :=
  if m = 2 then (if isLeap y then 29 else 28)
  else if m = 4 ∨ m = 6 ∨ m = 9 ∨ m = 11 then 30
  else 31

/-- Days strictly before shifted year `yoe` within a 400-year era
(years counted from March 1; `yoe ∈ [0, 399]`). -/
def daysBeforeYoe (yoe : Nat) : Nat := 365 * yoe + yoe / 4 - yoe / 100

/-- Year-of-era of a day-of-era (`doe ∈ [0, 146096]`), per the standard
closed-form civil-from-days algorithm. -/
def yoeOf (doe : Nat) : Nat :=
  (doe - doe / 1460 + doe / 36524 - doe / 146096) / 365

/-- A civil (calendar) date. -/
structure Civil where
  y : Nat
  m : Nat
  d : Nat
deriving DecidableEq, Repr

/-- Civil date of day-of-era `doe` within 400-year era `era`. -/
def civilOfEraDoe (era doe : Nat) : Civil :=
  let yoe := yoeOf doe
  let doy := doe - daysBeforeYoe yoe
  let mp := (5 * doy + 2) / 153
  let d := doy - (153 * mp + 2) / 5 + 1
  let m := if mp < 10 then mp + 3 else mp - 9
  ⟨era * 400 + yoe + (if m ≤ 2 then 1 else 0), m, d⟩

/-- Civil date of a day index counted from 1970-01-01 (day 0), the
conversion the host `datetime` library performs for nonnegative instants. -/
def civilFromDays (days : Nat) : Civil :=
  civilOfEraDoe ((days + 719468) / 146097) ((days + 719468) % 146097)

/-- Day index (from 1970-01-01) of a civil date; inverse of `civilFromDays`
on dates from 1970 on.  Used to locate DST transition days. -/
def daysFromCivil (y m d : Nat) : Nat :=
  let yAdj := if m ≤ 2 then y - 1 else y
  let era := yAdj / 400
  let yoe := yAdj % 400
  let mp := (m + 9) % 12
  let doy := (153 * mp + 2) / 5 + d - 1
  let doe := yoe * 365 + yoe / 4 - yoe / 100 + doy
  era * 146097 + doe - 719468

/-! ## Europe/Rome timezone rules (IANA tzdata model)

The `zoneinfo` database applies, for `Europe/Rome` in the service's
operational era, the EU daylight-saving rule: the UTC offset is +02:00 from
01:00 UTC on the last Sunday of March until 01:00 UTC on the last Sunday of
October, and +01:00 otherwise.  The rules are a function of the instant
queried, evaluated afresh for each `datetime.now(tz)` call. -/

/-- Day of week of a day index; `0` is Sunday (1970-01-01 was a Thursday). -/
def dayOfWeekSun0 (days : Nat) : Nat := (days + 4) % 7

/-- Day of month of the last Sunday of a 31-day month `m` of year `y`. -/
def lastSundayDay (y m : Nat) : Nat :=
  31 - dayOfWeekSun0 (daysFromCivil y m 31)

/-- Epoch second at which DST starts in year `y` (01:00 UTC, last Sunday of
March). -/
def springForwardEpoch (y : Nat) : Nat :=
  daysFromCivil y 3 (lastSundayDay y 3) * 86400 + 3600

/-- Epoch second at which DST ends in year `y` (01:00 UTC, last Sunday of
October). -/
def fallBackEpoch (y : Nat) : Nat :=
  daysFromCivil y 10 (lastSundayDay y 10) * 86400 + 3600

/-- UTC offset (in seconds) of `Europe/Rome` at epoch second `t`:
7200 during daylight-saving time, 3600 otherwise. -/
def romeOffset (t : Nat) : Nat :=
  let y := (civilFromDays (t / 86400)).y
  if springForwardEpoch y ≤ t ∧ t < fallBackEpoch y then 7200 else 3600

/-- Local (wall-clock) epoch second in Rome for UTC epoch second `t`. -/
def localEpoch (t : Nat) : Nat := t + romeOffset t

/-- The six components of a local civil time. -/
structure CivilTime where
  year : Nat
  month : Nat
  day : Nat
  hour : Nat
  minute : Nat
  second : Nat
deriving DecidableEq, Repr

/-- Civil time components of a local epoch second `lt`. -/
def civilTimeOfEpoch (lt : Nat) : CivilTime :=
  let c := civilFromDays (lt / 86400)
  let sod := lt % 86400
  ⟨c.y, c.m, c.d, sod / 3600, sod % 3600 / 60, sod % 60⟩

/-- What `datetime.now(ZoneInfo("Europe/Rome"))` yields for UTC epoch
second `t`, as civil components. -/
def romeNow (t : Nat) : CivilTime := civilTimeOfEpoch (localEpoch t)

/-! ## strftime model -/

/-- The decimal digit character for `n % 10`. -/
def digitChar (n : Nat) : Char := Char.ofNat (48 + n % 10)

/-- Two-digit zero-padded decimal field (`%m`, `%d`, `%H`, `%M`, `%S`). -/
def pad2 (n : Nat) : List Char := [digitChar (n / 10), digitChar n]

/-- Four-digit zero-padded decimal field (`%Y` for years 1000–9999,
the only years a successful `datetime.now` call can produce here). -/
def pad4 (n : Nat) : List Char :=
  [digitChar (n / 1000), digitChar (n / 100), digitChar (n / 10), digitChar n]

/-- Character list of `strftime("%Y-%m-%d %H:%M:%S")` on components `c`. -/
def formatChars (c : CivilTime) : List Char :=
  pad4 c.year ++ '-' :: (pad2 c.month ++ '-' :: (pad2 c.day ++
    ' ' :: (pad2 c.hour ++ ':' :: (pad2 c.minute ++ ':' :: pad2 c.second))))

/-- `strftime("%Y-%m-%d %H:%M:%S")` on components `c`. -/
def formatTime (c : CivilTime) : String := String.mk (formatChars c)

/-- Does a string match `^\d\x7b4\x7d-\d\x7b2\x7d-\d\x7b2\x7d \d\x7b2\x7d:\d\x7b2\x7d:\d\x7b2\x7d$`
(the spec's FormattedTime pattern, anchors included)? -/
def isTimePattern (s : String) : Bool :=
  match s.data with
  | [y3, y2, y1, y0, s1, m1, m0, s2, d1, d0, s3, h1, h0, s4, n1, n0, s5, c1, c0] =>
    y3.isDigit && y2.isDigit && y1.isDigit && y0.isDigit && s1 = '-' &&
    m1.isDigit && m0.isDigit && s2 = '-' && d1.isDigit && d0.isDigit &&
    s3 = ' ' && h1.isDigit && h0.isDigit && s4 = ':' && n1.isDigit &&
    n0.isDigit && s5 = ':' && c1.isDigit && c0.isDigit
  | _ => false

/-! ## The service (src/main.py) -/

/-- `TZ_NAME: Final[str] = "Europe/Rome"`. -/
def TZ_NAME : String := "Europe/Rome"

/-- Outcome of the host's `ZoneInfo(TZ_NAME)` construction: success, a
`ZoneInfoNotFoundError` with message `msg`, or any other exception. -/
inductive Resolution where
  | found
  | notFound (msg : String)
  | otherError (msg : String)
deriving DecidableEq, Repr

/-- A `fastapi.HTTPException` value. -/
structure HTTPExceptionModel where
  status_code : Nat
  detail : String
deriving DecidableEq, Repr

/-- An exception escaping a handler: either a `fastapi.HTTPException` or
any other Python exception (carried as its message). -/
inductive PyError where
  | http (e : HTTPExceptionModel)
  | other (msg : String)
deriving DecidableEq, Repr

/-- The detail string `get_rome_tz` builds when `ZoneInfo(TZ_NAME)` raises
`ZoneInfoNotFoundError` with message `excMsg`. -/
def tzNotFoundDetail (excMsg : String) : String :=
  "Timezone data for \x27" ++ TZ_NAME ++ "\x27 not found: " ++ excMsg ++
    ". Install the \x27tzdata\x27 package (e.g. \x60pip install tzdata\x60) or " ++
    "ensure the OS provides the IANA time\u2011zone database."

/-- `get_rome_tz()`: returns the `ZoneInfo` object (modelled as `Unit`), or
raises `HTTPException(500, ...)` on `ZoneInfoNotFoundError`; any other
exception propagates unhandled. -/
def get_rome_tz (res : Resolution) : Except PyError Unit :=
  match res with
  | .found => .ok ()
  | .notFound msg => .error (.http ⟨500, tzNotFoundDetail msg⟩)
  | .otherError msg => .error (.other msg)

/-- A host-clock reading: whole epoch seconds plus sub-second microseconds
(`datetime.now` carries microseconds; `%S` discards them). -/
structure Instant where
  sec : Nat
  usec : Nat
deriving DecidableEq, Repr

/-- The handler `che_ore_sono()`: resolves the timezone, reads the clock,
and formats `datetime.now(tz)` with `strftime("%Y-%m-%d %H:%M:%S")`. -/
def che_ore_sono (res : Resolution) (now : Instant) : Except PyError String :=
  match get_rome_tz res with
  | .error e => .error e
  | .ok _ => .ok (formatTime (romeNow now.sec))

/-- An HTTP response (status code and plain-text body). -/
structure HTTPResponse where
  status : Nat
  body : String
deriving DecidableEq, Repr

/-- The FastAPI boundary on `GET /che_ore_sono`: a returned string becomes a
200 plain-text response, a raised `HTTPException` becomes a response with
its status code and detail, and any other exception propagates. -/
def handle_che_ore_sono (res : Resolution) (now : Instant) :
    Except String HTTPResponse :=
  match che_ore_sono res now with
  | .ok s => .ok ⟨200, s⟩
  | .error (.http e) => .ok ⟨e.status_code, e.detail⟩
  | .error (.other msg) => .error msg

/-- Substring test (`needle in haystack` on the underlying characters). -/
def containsStr (needle hay : String) : Bool :=
  decide (needle.data <:+: hay.data)

/-! ## Spec-side model of the core operation (design note, §9)

The spec's design note asks for the core to return a typed result
(`Result<FormattedTime, TimezoneUnavailable>`) free of transport concerns,
with the boundary translating the error kind to a status code. -/

/-- Modelled from the spec: the `TimezoneUnavailable` error kind, carrying
only a human-readable remediation hint and no transport data. -/
structure TimezoneUnavailable where
  hint : String
deriving DecidableEq, Repr

/-- Modelled from the spec: `now_formatted()` as a transport-free core
operation returning `Result<FormattedTime, TimezoneUnavailable>`. -/
def now_formatted_spec (res : Resolution) (now : Instant) :
    Except TimezoneUnavailable String :=
  match res with
  | .found => .ok (formatTime (romeNow now.sec))
  | .notFound msg => .error ⟨tzNotFoundDetail msg⟩
  | .otherError _ => .ok (formatTime (romeNow now.sec))

/-- Modelled from the spec: the boundary layer, which alone maps the
`TimezoneUnavailable` error kind to the transport-level 500 status. -/
def boundary_spec (r : Except TimezoneUnavailable String) : HTTPResponse :=
  match r with
  | .ok s => ⟨200, s⟩
  | .error e => ⟨500, e.hint⟩

/-- Numeric key ordering civil dates lexicographically. -/
def civilKey (c : Civil) : Nat := (c.y * 100 + c.m) * 100 + c.d

/-- Numeric key of the civil date of a day index. -/
def dateKey (days : Nat) : Nat := civilKey (civilFromDays days)

/-- Numeric key ordering six-component civil times lexicographically. -/
def key6 (c : CivilTime) : Nat :=
  ((((c.year * 100 + c.month) * 100 + c.day) * 100 + c.hour) * 100 +
    c.minute) * 100 + c.second

example : civilFromDays 0 = ⟨1970, 1, 1⟩ := by decide
example : civilFromDays 19813 = ⟨2024, 3, 31⟩ := by decide
example : civilFromDays 20023 = ⟨2024, 10, 27⟩ := by decide
example : daysFromCivil 2024 3 31 = 19813 := by decide
example : daysFromCivil 2024 10 31 = 20027 := by decide
example : lastSundayDay 2024 3 = 31 := by decide
example : lastSundayDay 2024 10 = 27 := by decide
example : romeOffset 1711846799 = 3600 := by decide
example : romeOffset 1711846800 = 7200 := by decide
example : formatTime (romeNow 1711846799) = "2024-03-31 01:59:59" := by decide
example : formatTime (romeNow 1711846800) = "2024-03-31 03:00:00" := by decide

/-! ## Calendar correctness lemmas -/

/-- The year-of-era formula is correct: `daysBeforeYoe (yoeOf doe)` bounds
`doe` from below with a day-of-year of at most 365, `yoeOf doe ≤ 399`, the
bound is tight except at the final era day, and day-of-year 365 certifies a
leap year. -/
theorem yoe_sandwich (doe : Nat) (h : doe < 146097) :
    daysBeforeYoe (yoeOf doe) ≤ doe ∧
    doe - daysBeforeYoe (yoeOf doe) ≤ 365 ∧
    yoeOf doe ≤ 399 ∧
    (doe < 146096 → doe < daysBeforeYoe (yoeOf doe + 1)) ∧
    (doe - daysBeforeYoe (yoeOf doe) = 365 →
      (yoeOf doe + 1) % 4 = 0 ∧
        ((yoeOf doe + 1) % 100 ≠ 0 ∨ (yoeOf doe + 1) % 400 = 0)) := by
  rcases Nat.lt_or_ge doe 146096 with hlt | hge
  · obtain ⟨b, r, hbr, hr⟩ : ∃ b r, doe = 36524 * b + r ∧ r < 36524 :=
      ⟨doe / 36524, doe % 36524, by omega, by omega⟩
    obtain ⟨v, s, hvs, hs⟩ : ∃ v s, r = 1461 * v + s ∧ s < 1461 :=
      ⟨r / 1461, r % 1461, by omega, by omega⟩
    have hb : b ≤ 3 := by omega
    have hv : v ≤ 24 := by omega
    have hv24 : v = 24 → s ≤ 1459 := by omega
    have hf : doe / 146096 = 0 := Nat.div_eq_of_lt hlt
    have he : doe / 36524 = b := by omega
    have hglo : 24 * b + v + s < 1460 → doe / 1460 = 25 * b + v := by
      intro hc; omega
    have hghi : 1460 ≤ 24 * b + v + s → doe / 1460 = 25 * b + v + 1 := by
      intro hc; omega
    have hcase : s < 365 ∨ (365 ≤ s ∧ s < 730) ∨ (730 ≤ s ∧ s < 1095) ∨ 1095 ≤ s := by
      omega
    rcases hcase with h0 | h1 | h2 | h3
    · have hδ : doe / 1460 = 25 * b + v := hglo (by omega)
      have hyoe : yoeOf doe = 100 * b + 4 * v := by unfold yoeOf; omega
      unfold daysBeforeYoe
      rw [hyoe]
      omega
    · have hδ : doe / 1460 = 25 * b + v := hglo (by omega)
      have hyoe : yoeOf doe = 100 * b + 4 * v + 1 := by unfold yoeOf; omega
      unfold daysBeforeYoe
      rw [hyoe]
      omega
    · have hδ : doe / 1460 = 25 * b + v := hglo (by omega)
      have hyoe : yoeOf doe = 100 * b + 4 * v + 2 := by unfold yoeOf; omega
      unfold daysBeforeYoe
      rw [hyoe]
      omega
    · have hyoe : yoeOf doe = 100 * b + 4 * v + 3 := by
        rcases Nat.lt_or_ge (24 * b + v + s) 1460 with hc | hc
        · have hδ : doe / 1460 = 25 * b + v := hglo hc
          unfold yoeOf; omega
        · have hδ : doe / 1460 = 25 * b + v + 1 := hghi hc
          unfold yoeOf; omega
      unfold daysBeforeYoe
      rw [hyoe]
      refine ⟨by omega, by omega, by omega, fun _ => by omega, fun hdoy => ⟨by omega, ?_⟩⟩
      have hvle : v ≤ 23 := by omega
      omega
  · have hd : doe = 146096 := by omega
    subst hd
    refine ⟨by decide, by decide, by decide, by omega, fun _ => by decide⟩

/-- Arithmetic characterisation of `isLeap`. -/
theorem isLeap_iff (y : Nat) :
    isLeap y = true ↔ (y % 4 = 0 ∧ (y % 100 ≠ 0 ∨ y % 400 = 0)) := by
  simp [isLeap]

/-- Month/day validity of the civil conversion, in terms of a day-of-year
with its leap-year certificate. -/
theorem monthDay_valid (yoe doy mp d m y : Nat) (hdoy : doy ≤ 365)
    (hleap : doy = 365 →
      (yoe + 1) % 4 = 0 ∧ ((yoe + 1) % 100 ≠ 0 ∨ (yoe + 1) % 400 = 0))
    (hmp : mp = (5 * doy + 2) / 153)
    (hd : d = doy - (153 * mp + 2) / 5 + 1)
    (hm : m = if mp < 10 then mp + 3 else mp - 9)
    (hy : ∃ era, y = era * 400 + yoe + (if m ≤ 2 then 1 else 0)) :
    1 ≤ m ∧ m ≤ 12 ∧ 1 ≤ d ∧ d ≤ daysInMonth y m := by
  obtain ⟨era, hy⟩ := hy
  have hmp11 : mp ≤ 11 := by omega
  interval_cases mp <;> (norm_num at hm; subst hm; norm_num [daysInMonth]) <;>
    try omega
  have hy2 : y = era * 400 + yoe + 1 := by norm_num at hy; exact hy
  cases hL : isLeap y
  · have hP : ¬(y % 4 = 0 ∧ (y % 100 ≠ 0 ∨ y % 400 = 0)) := by
      rw [← isLeap_iff, hL]; simp
    simp only [hL, Bool.false_eq_true, if_false]
    omega
  · simp only [hL, if_true]
    omega

/-- Every month is at most 31 days long. -/
theorem daysInMonth_le (y m : Nat) : daysInMonth y m ≤ 31 := by
  unfold daysInMonth; split_ifs <;> omega

/-- The civil conversion always yields a month in 1–12 and a day that is
valid for that month and year (leap years included). -/
theorem civilFromDays_valid (z : Nat) :
    1 ≤ (civilFromDays z).m ∧ (civilFromDays z).m ≤ 12 ∧
      1 ≤ (civilFromDays z).d ∧
      (civilFromDays z).d ≤ daysInMonth (civilFromDays z).y (civilFromDays z).m := by
  have hdoe : (z + 719468) % 146097 < 146097 := Nat.mod_lt _ (by norm_num)
  obtain ⟨h1, h2, h3, h4, h5⟩ := yoe_sandwich _ hdoe
  exact monthDay_valid (yoeOf ((z + 719468) % 146097))
    ((z + 719468) % 146097 - daysBeforeYoe (yoeOf ((z + 719468) % 146097)))
    _ _ _ _ h2 h5 rfl rfl rfl ⟨(z + 719468) / 146097, rfl⟩

/-- Day indices up to 2932896 (local year 9999) stay within 4-digit years. -/
theorem civil_year_le (z : Nat) (h : z ≤ 2932896) : (civilFromDays z).y ≤ 9999 := by
  have hdoe : (z + 719468) % 146097 < 146097 := Nat.mod_lt _ (by norm_num)
  obtain ⟨h1, h2, h3, h4, h5⟩ := yoe_sandwich _ hdoe
  have hera : (z + 719468) / 146097 ≤ 24 := by omega
  simp only [civilFromDays, civilOfEraDoe]
  rcases Nat.lt_or_ge ((z + 719468) / 146097) 24 with he | he
  · split_ifs <;> omega
  · have he24 : (z + 719468) / 146097 = 24 := by omega
    have hdoe2 : (z + 719468) % 146097 ≤ 146036 := by omega
    rcases Nat.lt_or_ge (yoeOf ((z + 719468) % 146097)) 399 with hy | hy
    · split_ifs <;> omega
    · have hy399 : yoeOf ((z + 719468) % 146097) = 399 := by omega
      have hdB : daysBeforeYoe 399 = 145731 := by decide
      rw [hy399]
      split_ifs <;> omega

/-- `daysBeforeYoe` is monotone. -/
theorem daysBeforeYoe_mono {a b : Nat} (h : a ≤ b) :
    daysBeforeYoe a ≤ daysBeforeYoe b := by
  unfold daysBeforeYoe
  obtain ⟨p1, q1, hp1, hq1⟩ : ∃ p q, a = 4 * p + q ∧ q < 4 :=
    ⟨a / 4, a % 4, by omega, by omega⟩
  obtain ⟨p2, q2, hp2, hq2⟩ : ∃ p q, b = 4 * p + q ∧ q < 4 :=
    ⟨b / 4, b % 4, by omega, by omega⟩
  obtain ⟨c1, r1, hc1, hr1⟩ : ∃ c r, a = 100 * c + r ∧ r < 100 :=
    ⟨a / 100, a % 100, by omega, by omega⟩
  obtain ⟨c2, r2, hc2, hr2⟩ : ∃ c r, b = 100 * c + r ∧ r < 100 :=
    ⟨b / 100, b % 100, by omega, by omega⟩
  have e1 : a / 4 = p1 := by omega
  have e2 : b / 4 = p2 := by omega
  have e3 : a / 100 = c1 := by omega
  have e4 : b / 100 = c2 := by omega
  rw [e1, e2, e3, e4]
  have f1 : p1 ≤ p2 := by omega
  have f2 : c1 ≤ c2 := by omega
  have f3 : 100 * (c2 - c1) ≤ b - a + 99 := by omega
  omega

/-- Every shifted year is at least 365 days long. -/
theorem daysBeforeYoe_gap (a : Nat) :
    daysBeforeYoe a + 365 ≤ daysBeforeYoe (a + 1) := by
  unfold daysBeforeYoe
  obtain ⟨p1, q1, hp1, hq1⟩ : ∃ p q, a = 4 * p + q ∧ q < 4 :=
    ⟨a / 4, a % 4, by omega, by omega⟩
  obtain ⟨c1, r1, hc1, hr1⟩ : ∃ c r, a = 100 * c + r ∧ r < 100 :=
    ⟨a / 100, a % 100, by omega, by omega⟩
  have e1 : a / 4 = p1 := by omega
  have e3 : a / 100 = c1 := by omega
  have e2 : (a + 1) / 4 = if q1 = 3 then p1 + 1 else p1 := by
    split_ifs <;> omega
  have e4 : (a + 1) / 100 = if r1 = 99 then c1 + 1 else c1 := by
    split_ifs <;> omega
  rw [e1, e2, e3, e4]
  have f1 : r1 = 99 → q1 = 3 := by omega
  split_ifs <;> omega

/-- Stepping one day either stays in the same shifted year (day-of-year
incrementing) or moves to day 0 of the next shifted year. -/
theorem yoe_step (doe : Nat) (h : doe + 1 < 146097) :
    (yoeOf (doe + 1) = yoeOf doe ∧
      (doe + 1) - daysBeforeYoe (yoeOf (doe + 1)) =
        (doe - daysBeforeYoe (yoeOf doe)) + 1) ∨
    (yoeOf (doe + 1) = yoeOf doe + 1 ∧
      (doe + 1) - daysBeforeYoe (yoeOf (doe + 1)) = 0 ∧
      364 ≤ doe - daysBeforeYoe (yoeOf doe)) := by
  obtain ⟨hlo, hdoy, h399, hup, -⟩ := yoe_sandwich doe (by omega)
  obtain ⟨hlo2, hdoy2, h399b, -, -⟩ := yoe_sandwich (doe + 1) h
  have hu := hup (by omega)
  rcases Nat.lt_trichotomy (yoeOf (doe + 1)) (yoeOf doe) with hc | hc | hc
  · have hm1 := daysBeforeYoe_mono (show yoeOf (doe + 1) + 1 ≤ yoeOf doe by omega)
    have hg1 := daysBeforeYoe_gap (yoeOf (doe + 1))
    omega
  · left
    rw [hc]
    omega
  · have hY1 : yoeOf (doe + 1) = yoeOf doe + 1 := by
      by_contra hne
      have hm2 := daysBeforeYoe_mono (show yoeOf doe + 1 + 1 ≤ yoeOf (doe + 1) by omega)
      have hg2 := daysBeforeYoe_gap (yoeOf doe + 1)
      omega
    right
    have hg3 := daysBeforeYoe_gap (yoeOf doe)
    rw [hY1] at hlo2 hdoy2 ⊢
    omega

/-- One civil-date step strictly increases the date key, stated on the
raw year-of-era/day-of-year components. -/
theorem civilKey_step (era Y doy mp d m Y2 doy2 mp2 d2 m2 : Nat)
    (hdoy : doy ≤ 365) (hdoy2 : doy2 ≤ 365)
    (hmp : mp = (5 * doy + 2) / 153) (hd : d = doy - (153 * mp + 2) / 5 + 1)
    (hm : m = if mp < 10 then mp + 3 else mp - 9)
    (hmp2 : mp2 = (5 * doy2 + 2) / 153)
    (hd2 : d2 = doy2 - (153 * mp2 + 2) / 5 + 1)
    (hm2 : m2 = if mp2 < 10 then mp2 + 3 else mp2 - 9)
    (hstep : (Y2 = Y ∧ doy2 = doy + 1) ∨ (Y2 = Y + 1 ∧ doy2 = 0 ∧ 364 ≤ doy)) :
    ((era * 400 + Y + (if m ≤ 2 then 1 else 0)) * 100 + m) * 100 + d <
      ((era * 400 + Y2 + (if m2 ≤ 2 then 1 else 0)) * 100 + m2) * 100 + d2 := by
  have hmp11 : mp ≤ 11 := by omega
  have hmp211 : mp2 ≤ 11 := by omega
  rcases hstep with ⟨hY, hdd⟩ | ⟨hY, hdd, hge⟩
  · subst hY
    subst hdd
    have hmpc : mp2 = mp ∨ mp2 = mp + 1 := by omega
    rcases hmpc with he | he
    · subst he
      have hmm : m2 = m := by rw [hm, hm2]
      subst hmm
      omega
    · subst he
      have hcase : mp ≤ 8 ∨ mp = 9 ∨ mp = 10 := by omega
      rcases hcase with h8 | h9 | h10
      · have hmv : m = mp + 3 := by rw [hm, if_pos (by omega)]
        have hmv2 : m2 = mp + 4 := by rw [hm2, if_pos (by omega)]
        rw [hmv, hmv2, if_neg (by omega), if_neg (by omega)]
        omega
      · subst h9
        have hmv : m = 12 := by rw [hm]; norm_num
        have hmv2 : m2 = 1 := by rw [hm2]; norm_num
        rw [hmv, hmv2, if_neg (by omega), if_pos (by omega)]
        omega
      · subst h10
        have hmv : m = 1 := by rw [hm]; norm_num
        have hmv2 : m2 = 2 := by rw [hm2]; norm_num
        rw [hmv, hmv2, if_pos (by omega), if_pos (by omega)]
        omega
  · subst hY
    subst hdd
    have hmp11v : mp = 11 := by omega
    subst hmp11v
    have hmp20 : mp2 = 0 := by omega
    subst hmp20
    have hmv : m = 2 := by rw [hm]; norm_num
    have hmv2 : m2 = 3 := by rw [hm2]; norm_num
    rw [hmv, hmv2, if_pos (by omega), if_neg (by omega)]
    omega

/-- The date key strictly increases from each day to the next. -/
theorem dateKey_succ (z : Nat) : dateKey z < dateKey (z + 1) := by
  have hdoe : (z + 719468) % 146097 < 146097 := Nat.mod_lt _ (by norm_num)
  rcases Nat.lt_or_ge ((z + 719468) % 146097) 146096 with hlt | hge
  · have he : (z + 1 + 719468) / 146097 = (z + 719468) / 146097 := by omega
    have hd : (z + 1 + 719468) % 146097 = (z + 719468) % 146097 + 1 := by omega
    have hstep := yoe_step ((z + 719468) % 146097) (by omega)
    obtain ⟨-, hdoy, -, -, -⟩ := yoe_sandwich _ hdoe
    obtain ⟨-, hdoy2, -, -, -⟩ := yoe_sandwich ((z + 719468) % 146097 + 1) (by omega)
    unfold dateKey civilKey civilFromDays
    rw [he, hd]
    exact civilKey_step _ _ _ _ _ _ _ _ _ _ _ hdoy hdoy2 rfl rfl rfl rfl rfl rfl hstep
  · have hdoev : (z + 719468) % 146097 = 146096 := by omega
    have he : (z + 1 + 719468) / 146097 = (z + 719468) / 146097 + 1 := by omega
    have hd0 : (z + 1 + 719468) % 146097 = 0 := by omega
    unfold dateKey civilKey civilFromDays
    rw [he, hd0, hdoev]
    norm_num [civilOfEraDoe, yoeOf, daysBeforeYoe]
    omega

/-- The date key is strictly monotone in the day index. -/
theorem dateKey_strictMono : StrictMono dateKey :=
  strictMono_nat_of_lt_succ dateKey_succ

/-! ## Lexicographic order of the formatted strings -/

/-- Digit characters compare like their digit values. -/
theorem digitChar_lt {a b : Nat} (h : a % 10 < b % 10) :
    digitChar a < digitChar b := by
  unfold digitChar
  have ha : a % 10 < 10 := Nat.mod_lt _ (by norm_num)
  have hb : b % 10 < 10 := Nat.mod_lt _ (by norm_num)
  obtain ⟨x, hx, hxa⟩ : ∃ x, x < 10 ∧ a % 10 = x := ⟨_, ha, rfl⟩
  obtain ⟨y, hy, hyb⟩ : ∃ y, y < 10 ∧ b % 10 = y := ⟨_, hb, rfl⟩
  rw [hxa, hyb] at h ⊢
  interval_cases x <;> interval_cases y <;>
    first
      | exact absurd h (by decide)
      | decide

/-- Digit characters of congruent values coincide. -/
theorem digitChar_congr {a b : Nat} (h : a % 10 = b % 10) :
    digitChar a = digitChar b := by
  unfold digitChar; rw [h]

/-- Prepending a common prefix preserves strict lexicographic order. -/
theorem lex_append_right (p : List Char) {r1 r2 : List Char}
    (h : List.Lex (· < ·) r1 r2) : List.Lex (· < ·) (p ++ r1) (p ++ r2) := by
  induction p with
  | nil => simpa using h
  | cons a as ih => exact List.Lex.cons ih

/-- Four-digit fields of nat values up to 9999 compare lexicographically
like the values, whatever follows them. -/
theorem pad4_lex {a b : Nat} (h : a < b) (hb : b ≤ 9999) (r1 r2 : List Char) :
    List.Lex (· < ·) (pad4 a ++ r1) (pad4 b ++ r2) := by
  obtain ⟨x3, x2, x1, x0, hxe, hx3, hx2, hx1, hx0⟩ :
      ∃ x3 x2 x1 x0, a = 1000 * x3 + 100 * x2 + 10 * x1 + x0 ∧
        x3 < 10 ∧ x2 < 10 ∧ x1 < 10 ∧ x0 < 10 :=
    ⟨a / 1000, a / 100 % 10, a / 10 % 10, a % 10, by omega, by omega, by omega,
      by omega, by omega⟩
  obtain ⟨w3, w2, w1, w0, hwe, hw3, hw2, hw1, hw0⟩ :
      ∃ w3 w2 w1 w0, b = 1000 * w3 + 100 * w2 + 10 * w1 + w0 ∧
        w3 < 10 ∧ w2 < 10 ∧ w1 < 10 ∧ w0 < 10 :=
    ⟨b / 1000, b / 100 % 10, b / 10 % 10, b % 10, by omega, by omega, by omega,
      by omega, by omega⟩
  have ea3 : a / 1000 % 10 = x3 := by omega
  have ea2 : a / 100 % 10 = x2 := by omega
  have ea1 : a / 10 % 10 = x1 := by omega
  have ea0 : a % 10 = x0 := by omega
  have eb3 : b / 1000 % 10 = w3 := by omega
  have eb2 : b / 100 % 10 = w2 := by omega
  have eb1 : b / 10 % 10 = w1 := by omega
  have eb0 : b % 10 = w0 := by omega
  have hcmp : x3 < w3 ∨ (x3 = w3 ∧ (x2 < w2 ∨ (x2 = w2 ∧
      (x1 < w1 ∨ (x1 = w1 ∧ x0 < w0))))) := by omega
  simp only [pad4, List.cons_append, List.nil_append]
  rcases hcmp with h1 | ⟨e1, h2 | ⟨e2, h3 | ⟨e3, h4⟩⟩⟩
  · exact List.Lex.rel (digitChar_lt (by omega))
  · rw [digitChar_congr (show a / 1000 % 10 = b / 1000 % 10 by omega)]
    exact List.Lex.cons (List.Lex.rel (digitChar_lt (by omega)))
  · rw [digitChar_congr (show a / 1000 % 10 = b / 1000 % 10 by omega),
      digitChar_congr (show a / 100 % 10 = b / 100 % 10 by omega)]
    exact List.Lex.cons (List.Lex.cons (List.Lex.rel (digitChar_lt (by omega))))
  · rw [digitChar_congr (show a / 1000 % 10 = b / 1000 % 10 by omega),
      digitChar_congr (show a / 100 % 10 = b / 100 % 10 by omega),
      digitChar_congr (show a / 10 % 10 = b / 10 % 10 by omega)]
    exact List.Lex.cons (List.Lex.cons (List.Lex.cons
      (List.Lex.rel (digitChar_lt (by omega)))))

/-- Two-digit fields of nat values up to 99 compare lexicographically like
the values, whatever follows them. -/
theorem pad2_lex {a b : Nat} (h : a < b) (hb : b ≤ 99) (r1 r2 : List Char) :
    List.Lex (· < ·) (pad2 a ++ r1) (pad2 b ++ r2) := by
  obtain ⟨x1, x0, hxe, hx1, hx0⟩ :
      ∃ x1 x0, a = 10 * x1 + x0 ∧ x1 < 10 ∧ x0 < 10 :=
    ⟨a / 10, a % 10, by omega, by omega, by omega⟩
  obtain ⟨w1, w0, hwe, hw1, hw0⟩ :
      ∃ w1 w0, b = 10 * w1 + w0 ∧ w1 < 10 ∧ w0 < 10 :=
    ⟨b / 10, b % 10, by omega, by omega, by omega⟩
  have ea1 : a / 10 % 10 = x1 := by omega
  have ea0 : a % 10 = x0 := by omega
  have eb1 : b / 10 % 10 = w1 := by omega
  have eb0 : b % 10 = w0 := by omega
  have hcmp : x1 < w1 ∨ (x1 = w1 ∧ x0 < w0) := by omega
  simp only [pad2, List.cons_append, List.nil_append]
  rcases hcmp with h1 | ⟨e1, h2⟩
  · exact List.Lex.rel (digitChar_lt (by omega))
  · rw [digitChar_congr (show a / 10 % 10 = b / 10 % 10 by omega)]
    exact List.Lex.cons (List.Lex.rel (digitChar_lt (by omega)))

/-- The formatted string is monotone in the numeric key, for components
within their field widths. -/
theorem formatTime_le_of_key6 (c1 c2 : CivilTime)
    (h1y : c1.year ≤ 9999) (h2y : c2.year ≤ 9999)
    (h1m : c1.month ≤ 99) (h2m : c2.month ≤ 99)
    (h1d : c1.day ≤ 99) (h2d : c2.day ≤ 99)
    (h1h : c1.hour ≤ 99) (h2h : c2.hour ≤ 99)
    (h1n : c1.minute ≤ 99) (h2n : c2.minute ≤ 99)
    (h1s : c1.second ≤ 99) (h2s : c2.second ≤ 99)
    (hkey : key6 c1 ≤ key6 c2) : formatTime c1 ≤ formatTime c2 := by
  obtain ⟨y1, m1, d1, hh1, n1, s1⟩ := c1
  obtain ⟨y2, m2, d2, hh2, n2, s2⟩ := c2
  simp only [key6] at hkey
  simp only at h1y h2y h1m h2m h1d h2d h1h h2h h1n h2n h1s h2s
  have toLe : ∀ {a b : CivilTime},
      List.Lex (· < ·) (formatChars a) (formatChars b) →
        formatTime a ≤ formatTime b := by
    intro a b hl
    exact le_of_lt (String.lt_iff_toList_lt.mpr hl)
  have hc : y1 < y2 ∨ (y1 = y2 ∧ (m1 < m2 ∨ (m1 = m2 ∧ (d1 < d2 ∨
      (d1 = d2 ∧ (hh1 < hh2 ∨ (hh1 = hh2 ∧ (n1 < n2 ∨
      (n1 = n2 ∧ (s1 < s2 ∨ s1 = s2)))))))))) := by omega
  rcases hc with hy | ⟨rfl, hm | ⟨rfl, hd | ⟨rfl, hh | ⟨rfl, hn | ⟨rfl, hs | rfl⟩⟩⟩⟩⟩
  · exact toLe (pad4_lex hy h2y _ _)
  · exact toLe (lex_append_right _ (List.Lex.cons (pad2_lex hm h2m _ _)))
  · exact toLe (lex_append_right _ (List.Lex.cons (lex_append_right _
      (List.Lex.cons (pad2_lex hd h2d _ _)))))
  · exact toLe (lex_append_right _ (List.Lex.cons (lex_append_right _
      (List.Lex.cons (lex_append_right _
        (List.Lex.cons (pad2_lex hh h2h _ _)))))))
  · exact toLe (lex_append_right _ (List.Lex.cons (lex_append_right _
      (List.Lex.cons (lex_append_right _ (List.Lex.cons (lex_append_right _
        (List.Lex.cons (pad2_lex hn h2n _ _)))))))))
  · exact toLe (lex_append_right _ (List.Lex.cons (lex_append_right _
      (List.Lex.cons (lex_append_right _ (List.Lex.cons (lex_append_right _
        (List.Lex.cons (lex_append_right _
          (List.Lex.cons (pad2_lex hs h2s _ _)))))))))))
  · exact le_refl _

/-- `key6` of the civil time decomposes into date key and time of day. -/
theorem key6_decomp (lt : Nat) :
    key6 (civilTimeOfEpoch lt) =
      dateKey (lt / 86400) * 1000000 + (lt % 86400 / 3600) * 10000 +
        (lt % 86400 % 3600 / 60) * 100 + lt % 86400 % 60 := by
  simp only [key6, civilTimeOfEpoch, dateKey, civilKey]
  ring

/-- The civil-time key is monotone in the local epoch second. -/
theorem key6_mono {lt1 lt2 : Nat} (h : lt1 ≤ lt2) :
    key6 (civilTimeOfEpoch lt1) ≤ key6 (civilTimeOfEpoch lt2) := by
  rw [key6_decomp, key6_decomp]
  rcases Nat.lt_or_ge (lt1 / 86400) (lt2 / 86400) with hd | hd
  · have hk := dateKey_strictMono hd
    have hb1 : lt1 % 86400 / 3600 ≤ 23 := by omega
    have hb2 : lt1 % 86400 % 3600 / 60 ≤ 59 := by omega
    have hb3 : lt1 % 86400 % 60 ≤ 59 := by omega
    omega
  · have hde : lt1 / 86400 = lt2 / 86400 := by omega
    have hsod : lt1 % 86400 ≤ lt2 % 86400 := by omega
    rw [hde]
    rcases Nat.lt_or_ge (lt1 % 86400 / 3600) (lt2 % 86400 / 3600) with hh | hh
    · have hb2 : lt1 % 86400 % 3600 / 60 ≤ 59 := by omega
      have hb3 : lt1 % 86400 % 60 ≤ 59 := by omega
      omega
    · have hhe : lt1 % 86400 / 3600 = lt2 % 86400 / 3600 := by omega
      have hr : lt1 % 86400 % 3600 ≤ lt2 % 86400 % 3600 := by omega
      rcases Nat.lt_or_ge (lt1 % 86400 % 3600 / 60) (lt2 % 86400 % 3600 / 60)
        with hn | hn
      · have hb3 : lt1 % 86400 % 60 ≤ 59 := by omega
        omega
      · have hne : lt1 % 86400 % 3600 / 60 = lt2 % 86400 % 3600 / 60 := by omega
        have hse : lt1 % 86400 % 60 ≤ lt2 % 86400 % 60 := by omega
        omega

/-- Component bounds of the civil time of an epoch second. -/
theorem civilTimeOfEpoch_bounds (lt : Nat) :
    1 ≤ (civilTimeOfEpoch lt).month ∧ (civilTimeOfEpoch lt).month ≤ 12 ∧
    1 ≤ (civilTimeOfEpoch lt).day ∧
    (civilTimeOfEpoch lt).day ≤
      daysInMonth (civilTimeOfEpoch lt).year (civilTimeOfEpoch lt).month ∧
    (civilTimeOfEpoch lt).hour ≤ 23 ∧ (civilTimeOfEpoch lt).minute ≤ 59 ∧
    (civilTimeOfEpoch lt).second ≤ 59 := by
  have hv := civilFromDays_valid (lt / 86400)
  refine ⟨hv.1, hv.2.1, hv.2.2.1, hv.2.2.2, ?_, ?_, ?_⟩ <;>
    (simp only [civilTimeOfEpoch]; omega)

/-- The formatted string is monotone in the Rome local epoch second, for
instants whose local time stays within year 9999. -/
theorem formatTime_romeNow_mono {t1 t2 : Nat}
    (h : localEpoch t1 ≤ localEpoch t2)
    (hmax : localEpoch t2 ≤ 253402300799) :
    formatTime (romeNow t1) ≤ formatTime (romeNow t2) := by
  unfold romeNow
  have hb1 := civilTimeOfEpoch_bounds (localEpoch t1)
  have hb2 := civilTimeOfEpoch_bounds (localEpoch t2)
  have hy1 : (civilTimeOfEpoch (localEpoch t1)).year ≤ 9999 :=
    civil_year_le _ (by omega)
  have hy2 : (civilTimeOfEpoch (localEpoch t2)).year ≤ 9999 :=
    civil_year_le _ (by omega)
  have hdm1 := daysInMonth_le (civilTimeOfEpoch (localEpoch t1)).year
    (civilTimeOfEpoch (localEpoch t1)).month
  have hdm2 := daysInMonth_le (civilTimeOfEpoch (localEpoch t2)).year
    (civilTimeOfEpoch (localEpoch t2)).month
  exact formatTime_le_of_key6 _ _ hy1 hy2 (by omega) (by omega) (by omega)
    (by omega) (by omega) (by omega) (by omega) (by omega) (by omega) (by omega)
    (key6_mono h)

/-- Digit characters are decimal digits. -/
theorem digitChar_isDigit (n : Nat) : (digitChar n).isDigit = true := by
  unfold digitChar
  have h : n % 10 < 10 := Nat.mod_lt _ (by norm_num)
  obtain ⟨x, hx, hxe⟩ : ∃ x, x < 10 ∧ n % 10 = x := ⟨_, h, rfl⟩
  rw [hxe]
  interval_cases x <;> decide

/-- Every formatted civil time matches the FormattedTime pattern. -/
theorem isTimePattern_format (c : CivilTime) :
    isTimePattern (formatTime c) = true := by
  simp [formatTime, formatChars, pad4, pad2, isTimePattern, digitChar_isDigit]

/-- Infixes survive prepending. -/
theorem isInfix_prepend (pre : List Char) {n post : List Char}
    (h : n <:+: post) : n <:+: pre ++ post := by
  obtain ⟨s, t, ht⟩ := h
  exact ⟨pre ++ s, t, by rw [← ht]; simp [List.append_assoc]⟩

/-- The remediation detail always names the zone identifier. -/
theorem tzdetail_contains_rome (msg : String) :
    containsStr TZ_NAME (tzNotFoundDetail msg) = true := by
  rw [containsStr, decide_eq_true_iff]
  refine ⟨"Timezone data for \x27".data,
    "\x27 not found: ".data ++ (msg.data ++
      (". Install the \x27tzdata\x27 package (e.g. \x60pip install tzdata\x60) or ".data ++
        "ensure the OS provides the IANA time‑zone database.".data)), ?_⟩
  simp [tzNotFoundDetail, String.data_append, List.append_assoc]

/-- The remediation detail always carries the `tzdata` install hint. -/
theorem tzdetail_contains_tzdata (msg : String) :
    containsStr "tzdata" (tzNotFoundDetail msg) = true := by
  rw [containsStr, decide_eq_true_iff]
  have hbase : "tzdata".data <:+:
      ". Install the \x27tzdata\x27 package (e.g. \x60pip install tzdata\x60) or ".data ++
        "ensure the OS provides the IANA time‑zone database.".data := by
    refine ⟨". Install the \x27".data,
      "\x27 package (e.g. \x60pip install tzdata\x60) or ".data ++
        "ensure the OS provides the IANA time‑zone database.".data, ?_⟩
    decide
  have hall := isInfix_prepend "Timezone data for \x27".data
    (isInfix_prepend TZ_NAME.data (isInfix_prepend "\x27 not found: ".data
      (isInfix_prepend msg.data hbase)))
  have heq : (tzNotFoundDetail msg).data =
      "Timezone data for \x27".data ++ (TZ_NAME.data ++ ("\x27 not found: ".data ++
        (msg.data ++
          (". Install the \x27tzdata\x27 package (e.g. \x60pip install tzdata\x60) or ".data ++
            "ensure the OS provides the IANA time‑zone database.".data)))) := by
    simp [tzNotFoundDetail, String.data_append, List.append_assoc]
  rw [heq]
  exact hall

/-- The character data of the remediation detail, split at its parts. -/
theorem tzdetail_data_eq (msg : String) :
    (tzNotFoundDetail msg).data =
      "Timezone data for \x27".data ++ (TZ_NAME.data ++ ("\x27 not found: ".data ++
        (msg.data ++
          (". Install the \x27tzdata\x27 package (e.g. \x60pip install tzdata\x60) or ".data ++
            "ensure the OS provides the IANA time‑zone database.".data)))) := by
  simp [tzNotFoundDetail, String.data_append, List.append_assoc]

/-- The remediation detail is never empty. -/
theorem tzdetail_length_pos (msg : String) :
    0 < (tzNotFoundDetail msg).length := by
  have h : (tzNotFoundDetail msg).length = (tzNotFoundDetail msg).data.length :=
    rfl
  rw [h, tzdetail_data_eq]
  have h2 : 0 < ("Timezone data for \x27".data).length := by decide
  simp [List.length_append]

/-! ## Claims -/

/-- C1: for every successful call to the handler `che_ore_sono` (timezone
resolution succeeded) at an instant the runtime can format (local year at
most 9999, the `datetime` range), the returned string matches the anchored
pattern of `YYYY-MM-DD HH:MM:SS`: four digits, hyphen, two digits, hyphen,
two digits, space, two digits, colon, two digits, colon, two digits. -/
theorem C1_che_ore_sono_pattern (now : Instant) (s : String)
    (hrange : localEpoch now.sec ≤ 253402300799)
    (hok : che_ore_sono .found now = .ok s) :
    isTimePattern s = true := by
  have hs : s = formatTime (romeNow now.sec) := by
    simpa [che_ore_sono, get_rome_tz] using hok.symm
  rw [hs]
  exact isTimePattern_format _

theorem C1_witness : isTimePattern "2024-03-31 03:00:00" = true :=
  C1_che_ore_sono_pattern ⟨1711846800, 0⟩ "2024-03-31 03:00:00"
    (by decide) rfl

/-- C2: when the timezone database lacks "Europe/Rome"
(`ZoneInfoNotFoundError`), `che_ore_sono` fails with the 500
TimezoneUnavailable error whose detail carries the remediation hint (the
zone name and the tzdata install hint), and it never returns a string: the
error exit and the string-returning exit are mutually exclusive. -/
theorem C2_tz_unavailable (msg : String) (now : Instant) :
    che_ore_sono (.notFound msg) now =
        .error (.http ⟨500, tzNotFoundDetail msg⟩) ∧
      (che_ore_sono (.notFound msg) now).isOk = false ∧
      containsStr TZ_NAME (tzNotFoundDetail msg) = true ∧
      containsStr "tzdata" (tzNotFoundDetail msg) = true :=
  ⟨rfl, rfl, tzdetail_contains_rome msg, tzdetail_contains_tzdata msg⟩

/-- C3: the Europe/Rome rules are re-evaluated per instant: at the 2024
spring-forward transition (last Sunday of March, 01:00 UTC) the UTC offset
changes from 3600 to 7200 between consecutive host-clock seconds, and the
formatted local time jumps from 01:59:59 to 03:00:00 — the local hour
skips forward by exactly one hour. -/
theorem C3_dst_spring_forward :
    romeOffset 1711846799 = 3600 ∧ romeOffset 1711846800 = 7200 ∧
      che_ore_sono .found ⟨1711846799, 0⟩ = .ok "2024-03-31 01:59:59" ∧
      che_ore_sono .found ⟨1711846800, 0⟩ = .ok "2024-03-31 03:00:00" ∧
      springForwardEpoch 2024 = 1711846800 :=
  ⟨by decide, by decide, rfl, rfl, by decide⟩

/-- C4: two calls during which the host clock reads instants within the
same whole second return identical strings: the result depends only on the
resolution outcome and the clock's whole-second value, not on sub-second
digits or any other input. -/
theorem C4_same_second_identical (t1 t2 : Instant) (h : t1.sec = t2.sec)
    (res : Resolution) : che_ore_sono res t1 = che_ore_sono res t2 := by
  cases res <;> simp [che_ore_sono, get_rome_tz, h]

theorem C4_witness :
    che_ore_sono .found ⟨5, 1⟩ = che_ore_sono .found ⟨5, 999999⟩ :=
  C4_same_second_identical ⟨5, 1⟩ ⟨5, 999999⟩ rfl .found

/-- C5 as stated is false on the code: across the 2024 fall-back DST
transition the host clock advances by one second while the returned string
strictly decreases lexicographically (local times repeat). -/
theorem C5_counterexample :
    (1729990799 : Nat) < 1729990800 ∧
      che_ore_sono .found ⟨1729990799, 0⟩ = .ok "2024-10-27 02:59:59" ∧
      che_ore_sono .found ⟨1729990800, 0⟩ = .ok "2024-10-27 02:00:00" ∧
      ("2024-10-27 02:00:00" : String) < "2024-10-27 02:59:59" :=
  ⟨by decide, rfl, rfl, String.lt_iff_toList_lt.mpr (by decide)⟩

/-- C5 amended: outputs are non-decreasing lexicographically whenever the
Rome local wall-clock time (instant plus current UTC offset) is
non-decreasing — in particular between any two instants not separated by a
backward (fall-back) DST transition; across a fall-back transition the
local time repeats and the output decreases. -/
theorem C5_amended_lex_monotone (t1 t2 : Instant) (s1 s2 : String)
    (hmono : localEpoch t1.sec ≤ localEpoch t2.sec)
    (hmax : localEpoch t2.sec ≤ 253402300799)
    (h1 : che_ore_sono .found t1 = .ok s1)
    (h2 : che_ore_sono .found t2 = .ok s2) : s1 ≤ s2 := by
  have e1 : s1 = formatTime (romeNow t1.sec) := by
    simpa [che_ore_sono, get_rome_tz] using h1.symm
  have e2 : s2 = formatTime (romeNow t2.sec) := by
    simpa [che_ore_sono, get_rome_tz] using h2.symm
  rw [e1, e2]
  exact formatTime_romeNow_mono hmono hmax

theorem C5_witness :
    ("1970-01-01 01:00:00" : String) ≤ "1970-01-01 01:00:01" :=
  C5_amended_lex_monotone ⟨0, 0⟩ ⟨1, 0⟩ _ _ (by decide) (by decide) rfl rfl

/-- C6: in every string the operation returns, the month is in 1–12, the
day is valid for that month and year (respecting leap years), the hour is
at most 23, and minute and second at most 59; the string is exactly the
fixed-width rendering of those components. -/
theorem C6_components_valid (now : Instant) (s : String)
    (hok : che_ore_sono .found now = .ok s) :
    s = formatTime (romeNow now.sec) ∧
      1 ≤ (romeNow now.sec).month ∧ (romeNow now.sec).month ≤ 12 ∧
      1 ≤ (romeNow now.sec).day ∧
      (romeNow now.sec).day ≤
        daysInMonth (romeNow now.sec).year (romeNow now.sec).month ∧
      (romeNow now.sec).hour ≤ 23 ∧ (romeNow now.sec).minute ≤ 59 ∧
      (romeNow now.sec).second ≤ 59 := by
  have hs : s = formatTime (romeNow now.sec) := by
    simpa [che_ore_sono, get_rome_tz] using hok.symm
  exact ⟨hs, civilTimeOfEpoch_bounds (localEpoch now.sec)⟩

theorem C6_witness : 1 ≤ (romeNow 1711846800).month :=
  (C6_components_valid ⟨1711846800, 0⟩ "2024-03-31 03:00:00" rfl).2.1

/-- C7: the 500 TimezoneUnavailable exception is the only error raised
within the operation's failure model, it arises only from timezone
resolution, and once `get_rome_tz` has succeeded the remaining computation
always returns the formatted string — the error branch is unreachable
after resolution. -/
theorem C7_single_error_kind (res : Resolution) (now : Instant) :
    (∀ u : Unit, get_rome_tz res = .ok u →
      che_ore_sono res now = .ok (formatTime (romeNow now.sec))) ∧
    (∀ e, che_ore_sono res now = .error e → get_rome_tz res = .error e) ∧
    (∀ msg, res = .notFound msg →
      che_ore_sono res now = .error (.http ⟨500, tzNotFoundDetail msg⟩)) := by
  refine ⟨?_, ?_, ?_⟩ <;> cases res <;> simp [che_ore_sono, get_rome_tz]

theorem C7_witness :
    che_ore_sono .found ⟨0, 0⟩ = .ok (formatTime (romeNow 0)) :=
  (C7_single_error_kind .found ⟨0, 0⟩).1 () rfl

/-- C8: at the HTTP surface, within the spec's failure model (timezone
resolution either succeeds or raises TimezoneUnavailable) and the
`datetime` range, every request yields either status 200 with a body
matching the FormattedTime pattern, or status 500 with a non-empty body
containing the zone name and the tzdata install hint. -/
theorem C8_http_outcomes (res : Resolution) (now : Instant)
    (hres : res = .found ∨ ∃ m, res = .notFound m)
    (hrange : localEpoch now.sec ≤ 253402300799) :
    ∃ r, handle_che_ore_sono res now = .ok r ∧
      ((r.status = 200 ∧ isTimePattern r.body = true) ∨
        (r.status = 500 ∧ 0 < r.body.length ∧
          containsStr TZ_NAME r.body = true ∧
          containsStr "tzdata" r.body = true)) := by
  rcases hres with rfl | ⟨m, rfl⟩
  · exact ⟨⟨200, formatTime (romeNow now.sec)⟩, rfl,
      Or.inl ⟨rfl, isTimePattern_format _⟩⟩
  · exact ⟨⟨500, tzNotFoundDetail m⟩, rfl,
      Or.inr ⟨rfl, tzdetail_length_pos m, tzdetail_contains_rome m,
        tzdetail_contains_tzdata m⟩⟩

theorem C8_witness :
    ∃ r, handle_che_ore_sono .found ⟨1711846800, 0⟩ = .ok r ∧
      ((r.status = 200 ∧ isTimePattern r.body = true) ∨
        (r.status = 500 ∧ 0 < r.body.length ∧
          containsStr TZ_NAME r.body = true ∧
          containsStr "tzdata" r.body = true)) :=
  C8_http_outcomes .found ⟨1711846800, 0⟩ (Or.inl rfl) (by decide)

/-- C9 as stated is false on the code: at a concrete input the core
operation `get_rome_tz` itself returns the transport-level error — a
`fastapi.HTTPException` value already fixing status code 500 — rather than
an abstract error kind left for the boundary to translate. -/
theorem C9_counterexample :
    ∃ e, get_rome_tz (.notFound "No time zone found with key Europe/Rome") =
        .error (.http e) ∧ e.status_code = 500 :=
  ⟨⟨500, tzNotFoundDetail "No time zone found with key Europe/Rome"⟩,
    rfl, rfl⟩

/-- C9 amended: the core signals failure as a typed exception value, but
that value itself carries the HTTP 500 status and the boundary returns it
verbatim; the observable responses nevertheless coincide with the spec's
Result-plus-boundary model. -/
theorem C9_amended_refinement (res : Resolution) (now : Instant)
    (hres : res = .found ∨ ∃ m, res = .notFound m) :
    handle_che_ore_sono res now =
      .ok (boundary_spec (now_formatted_spec res now)) := by
  rcases hres with rfl | ⟨m, rfl⟩ <;> rfl

theorem C9_witness :
    handle_che_ore_sono .found ⟨0, 0⟩ =
      .ok (boundary_spec (now_formatted_spec .found ⟨0, 0⟩)) :=
  C9_amended_refinement .found ⟨0, 0⟩ (Or.inl rfl)

/-- C10: only `ZoneInfoNotFoundError` is converted into the 500
TimezoneUnavailable error with the remediation detail; any other exception
during resolution propagates unchanged without the remediation message,
and the detail, when produced, always contains "Europe/Rome" and the
literal install hint tzdata. -/
theorem C10_exception_scope (msg : String) (now : Instant) :
    che_ore_sono (.otherError msg) now = .error (.other msg) ∧
      che_ore_sono (.notFound msg) now =
        .error (.http ⟨500, tzNotFoundDetail msg⟩) ∧
      containsStr TZ_NAME (tzNotFoundDetail msg) = true ∧
      containsStr "tzdata" (tzNotFoundDetail msg) = true :=
  ⟨rfl, rfl, tzdetail_contains_rome msg, tzdetail_contains_tzdata msg⟩
